import Mathlib

/-!
Shallow embedding of the pty-termux-utils core (provider resolution,
provider loading, error taxonomy, logging gate, and the child_process
fallback adapter), translated from src/getPty.ts, src/config.ts,
src/errors.ts, src/pty-adapter.ts and src/types.ts, together with
theorems settling the specification claims.
-/

namespace PtyTermuxUtils

/-- Substring test on character lists: `needle` occurs contiguously in `hay`.
Models JavaScript's String.prototype.includes. -/
def listIncludes (needle hay : List Char) : Bool :=
  hay.tails.any (fun t => needle.isPrefixOf t)

/-- JavaScript string.includes(needle). -/
def strIncludes (hay needle : String) : Bool :=
  listIncludes needle.toList hay.toList

/-- The environment facts the classifier reads: process.platform,
process.arch, process.env.PREFIX and process.env.PTY_DEBUG
(an absent environment variable is modelled as none). -/
structure Env where
  platform : String
  arch : String
  envPREFIX : Option String
  envPTY_DEBUG : Option String
deriving DecidableEq

/-- getPty.ts: process.platform === 'android' ||
process.env.PREFIX?.includes('com.termux'). -/
def isTermux (e : Env) : Bool :=
  e.platform == "android" ||
    (match e.envPREFIX with
     | some p => strIncludes p "com.termux"
     | none => false)

/-- getPty.ts: process.platform === 'linux' && process.arch === 'arm64'. -/
def isLinuxArm64 (e : Env) : Bool :=
  e.platform == "linux" && e.arch == "arm64"

/-- config.ts: PTY_DEBUG = process.env.PTY_DEBUG === '1'. -/
def ptyDebugFlag (e : Env) : Bool :=
  e.envPTY_DEBUG == some "1"

/-- The two console sinks used by config.ts. -/
inductive Sink where
  | debugSink
  | errSink
deriving DecidableEq

/-- One emitted console line: which sink it went to and its message. -/
structure LogLine where
  sink : Sink
  msg : String
deriving DecidableEq

/-- config.ts logDebug: emits to console.debug only when PTY_DEBUG is set;
the output is modelled as the list of lines actually emitted. -/
def logDebug (dbg : Bool) (msg : String) : List LogLine :=
  if dbg then [⟨Sink.debugSink, msg⟩] else []

/-- config.ts logError: emits to console.error unconditionally
(the function body has no PTY_DEBUG guard). -/
def logError (msg : String) : List LogLine :=
  [⟨Sink.errSink, msg⟩]

/-- A JavaScript Error value: message plus the optional code property
(for example 'MODULE_NOT_FOUND'). -/
structure JsError where
  message : String
  code : Option String
deriving DecidableEq

/-- A thrown JavaScript value: an Error instance or anything else. -/
inductive Thrown where
  | jsError (e : JsError)
  | nonError
deriving DecidableEq

/-- types.ts IPtySpawnOptions. The env record is modelled as a partial
map from variable names to values. -/
structure IPtySpawnOptions where
  optName : Option String := none
  cols : Option Nat := none
  rows : Option Nat := none
  cwd : Option String := none
  env : Option (String → Option String) := none
  handleFlowControl : Option Bool := none

/-- A candidate implementation value found in a loaded module: whether it
carries a truthy spawn member, and the spawn behaviour itself (which may
throw), returning an opaque process handle modelled as a number. -/
structure ModuleVal where
  hasSpawn : Bool
  spawn : String → List String → IPtySpawnOptions → Except Thrown Nat

/-- A successfully imported module: its optional default export and the
module object itself ((mod as any).default ?? mod). -/
structure LoadedModule where
  defaultExport : Option ModuleVal
  selfVal : ModuleVal

/-- The outcome of await import(moduleName): the module, or a thrown value. -/
inductive ImportOutcome where
  | ok (m : LoadedModule)
  | threw (t : Thrown)

/-- types.ts PtyProviderName. -/
inductive PtyProviderName where
  | mmmbutoNodePty
  | lydellNodePtyLinuxArm64
deriving DecidableEq

/-- The non-null half of types.ts PtyImplementation:
{ module: IPtyNativeImplementation; name: PtyProviderName }.
The null case is Option.none at use sites. -/
structure PtyProvider where
  module : ModuleVal
  name : PtyProviderName

def termuxModuleName : String := "@mmmbuto/node-pty-android-arm64"

def lydellModuleName : String := "@lydell/node-pty-linux-arm64"

/-- Result of one loadProvider call: the returned PtyImplementation,
the console lines emitted, and the module names passed to import. -/
structure LoadOut where
  res : Option PtyProvider
  logs : List LogLine
  imports : List String

/-- getPty.ts loadProvider, with the try/catch already collapsed: the
dynamic import's outcome is supplied by the ambient function imp. -/
def loadProvider (imp : String → ImportOutcome) (dbg : Bool)
    (moduleName : String) (nm : PtyProviderName) : LoadOut :=
  match imp moduleName with
  | ImportOutcome.ok mod =>
      let impl := mod.defaultExport.getD mod.selfVal
      if !impl.hasSpawn then
        ⟨none, logDebug dbg "Native module invalid export: missing spawn function",
          [moduleName]⟩
      else
        ⟨some ⟨impl, nm⟩, logDebug dbg "Native module loaded:", [moduleName]⟩
  | ImportOutcome.threw t =>
      let logs := match t with
        | Thrown.jsError e =>
            if e.code = some "MODULE_NOT_FOUND" then []
            else logError "Unexpected error loading native module:"
        | Thrown.nonError => []
      ⟨none, logs, [moduleName]⟩

/-- The body of loadProvider's try block, before the catch: a computation
that can propagate the thrown value. -/
def loadProviderTry (imp : String → ImportOutcome) (dbg : Bool)
    (moduleName : String) (nm : PtyProviderName) : Except Thrown LoadOut :=
  match imp moduleName with
  | ImportOutcome.threw t => Except.error t
  | ImportOutcome.ok mod =>
      let impl := mod.defaultExport.getD mod.selfVal
      if !impl.hasSpawn then
        Except.ok ⟨none,
          logDebug dbg "Native module invalid export: missing spawn function",
          [moduleName]⟩
      else
        Except.ok ⟨some ⟨impl, nm⟩, logDebug dbg "Native module loaded:",
          [moduleName]⟩

/-- getPty.ts loadProvider in the exception monad: the try block wrapped
in its catch clause, which absorbs every thrown value into null. -/
def loadProviderExc (imp : String → ImportOutcome) (dbg : Bool)
    (moduleName : String) (nm : PtyProviderName) : Except Thrown LoadOut :=
  match loadProviderTry imp dbg moduleName nm with
  | Except.ok r => Except.ok r
  | Except.error t =>
      let logs := match t with
        | Thrown.jsError e =>
            if e.code = some "MODULE_NOT_FOUND" then []
            else logError "Unexpected error loading native module:"
        | Thrown.nonError => []
      Except.ok ⟨none, logs, [moduleName]⟩

/-- Result of one uncached resolution pass of getPty. -/
structure ResolveOut where
  res : Option PtyProvider
  logs : List LogLine
  imports : List String

/-- getPty.ts priority 3: fall back to child_process and cache null. -/
def fallbackStep (dbg : Bool) (logs : List LogLine) (imports : List String) :
    ResolveOut :=
  ⟨none, logs ++ logDebug dbg "Using fallback PTY adapter with child_process",
    imports⟩

/-- getPty.ts priority 2: non-Termux Linux ARM64 tries
@lydell/node-pty-linux-arm64, then falls through to the fallback. -/
def linuxArm64Step (env : Env) (imp : String → ImportOutcome) (dbg : Bool)
    (logs : List LogLine) (imports : List String) : ResolveOut :=
  if !isTermux env && isLinuxArm64 env then
    let l := loadProvider imp dbg lydellModuleName
      PtyProviderName.lydellNodePtyLinuxArm64
    match l.res with
    | some p => ⟨some p, logs ++ l.logs, imports ++ l.imports⟩
    | none =>
        fallbackStep dbg
          (logs ++ l.logs ++
            logDebug dbg "Linux ARM64 PTY not found, using fallback adapter")
          (imports ++ l.imports)
  else fallbackStep dbg logs imports

/-- One uncached resolution pass of getPty.ts getPty: priority 1 Termux,
priority 2 non-Termux Linux ARM64, priority 3 fallback (null). -/
def getPtyOnce (env : Env) (imp : String → ImportOutcome) : ResolveOut :=
  let dbg := ptyDebugFlag env
  if isTermux env then
    let l := loadProvider imp dbg termuxModuleName PtyProviderName.mmmbutoNodePty
    match l.res with
    | some p => ⟨some p, l.logs, l.imports⟩
    | none =>
        linuxArm64Step env imp dbg
          (l.logs ++ logDebug dbg "Termux PTY not found, trying next provider")
          l.imports
  else linuxArm64Step env imp dbg [] []

/-- Observable outcome of one getPty() call in the memoized (stateful)
reading: the returned value, the cache cell afterwards, and the console
lines and imports the call produced. -/
structure CallOut where
  res : Option PtyProvider
  cache : Option (Option PtyProvider)
  logs : List LogLine
  imports : List String

/-- One call to the exported getPty, threading the module-level cached
cell (undefined is modelled as none; the cached value itself is an
Option PtyProvider whose none is the null sentinel). -/
def getPtyCall (env : Env) (imp : String → ImportOutcome)
    (cached : Option (Option PtyProvider)) : CallOut :=
  match cached with
  | some r => ⟨r, some r, [], []⟩
  | none =>
      let o := getPtyOnce env imp
      ⟨o.res, some o.res, o.logs, o.imports⟩

/-- n successive sequential getPty() calls starting from a given cache
state, collecting each call's observable outcome. -/
def callsFrom (env : Env) (imp : String → ImportOutcome) :
    Nat → Option (Option PtyProvider) → List CallOut
  | 0, _ => []
  | n + 1, c =>
      let o := getPtyCall env imp c
      o :: callsFrom env imp n o.cache

/-- n sequential getPty() calls over a fresh process (cache undefined). -/
def processCalls (env : Env) (imp : String → ImportOutcome) (n : Nat) :
    List CallOut :=
  callsFrom env imp n none

/-- errors.ts: the closed code enumeration carried by PtyError. -/
inductive PtyErrorCode where
  | NATIVE_NOT_FOUND
  | NATIVE_INVALID_EXPORT
  | SPAWN_FAILED
  | RESIZE_FAILED
deriving DecidableEq

/-- errors.ts PtyError: a message and one of the closed codes. -/
structure PtyError where
  message : String
  code : PtyErrorCode
deriving DecidableEq

/-- Observable outcome of one spawnPty call: the returned handle or the
PtyError thrown, plus cache state, console lines and imports. -/
structure SpawnOut where
  out : Except PtyError Nat
  cache : Option (Option PtyProvider)
  logs : List LogLine
  imports : List String

/-- getPty.ts spawnPty: resolve, throw NATIVE_NOT_FOUND on the null
sentinel, otherwise delegate to the provider's spawn and wrap anything
it throws as SPAWN_FAILED with the original Error message preserved. -/
def spawnPty (env : Env) (imp : String → ImportOutcome)
    (cached : Option (Option PtyProvider)) (file : String)
    (args : List String) (options : IPtySpawnOptions) : SpawnOut :=
  let g := getPtyCall env imp cached
  match g.res with
  | none =>
      ⟨Except.error ⟨"Native PTY not available", PtyErrorCode.NATIVE_NOT_FOUND⟩,
        g.cache, g.logs, g.imports⟩
  | some pty =>
      match pty.module.spawn file args options with
      | Except.ok h => ⟨Except.ok h, g.cache, g.logs, g.imports⟩
      | Except.error t =>
          ⟨Except.error
              ⟨(match t with
                | Thrown.jsError e => e.message
                | Thrown.nonError => "Unknown spawn error"),
                PtyErrorCode.SPAWN_FAILED⟩,
            g.cache, g.logs ++ logError "Failed to spawn PTY process:",
            g.imports⟩

/-- Events emitted by the underlying child process (pty-adapter.ts
subscribes to stdout data, stderr data, exit and error). The exit
payload carries the nullable code and nullable numeric signal exactly
as the adapter's handler receives them. -/
inductive ProcEvent where
  | outData (s : String)
  | errData (s : String)
  | exited (code : Option Int) (signal : Option Int)
  | procError (msg : String)
deriving DecidableEq

/-- Events the adapter delivers to its registered listeners. -/
inductive SessEvent where
  | data (s : String)
  | exit (code : Int) (signal : Int)
deriving DecidableEq

/-- pty-adapter.ts PtyAdapterProcess constructor handlers: stdout and
stderr data are forwarded to the data listeners, exit forwards
(code ?? -1, signal ?? 0) to the exit listeners, and a process error is
only logged (no session event). -/
def deliver : ProcEvent → List SessEvent
  | ProcEvent.outData s => [SessEvent.data s]
  | ProcEvent.errData s => [SessEvent.data s]
  | ProcEvent.exited c sg => [SessEvent.exit (c.getD (-1)) (sg.getD 0)]
  | ProcEvent.procError _ => []

/-- The full listener-visible event trace the adapter produces from the
underlying process's event trace. -/
def adapterTrace : List ProcEvent → List SessEvent
  | [] => []
  | e :: rest => deliver e ++ adapterTrace rest

/-- Recognizes delivered exit events. -/
def isExitEv : SessEvent → Bool
  | SessEvent.exit _ _ => true
  | _ => false

/-- Recognizes delivered data events. -/
def isDataEv : SessEvent → Bool
  | SessEvent.data _ => true
  | _ => false

/-- Recognizes underlying exit events. -/
def isExitProc : ProcEvent → Bool
  | ProcEvent.exited _ _ => true
  | _ => false

/-- Recognizes underlying data events (stdout or stderr). -/
def isDataProc : ProcEvent → Bool
  | ProcEvent.outData _ => true
  | ProcEvent.errData _ => true
  | _ => false

/-- The child's stdin stream as the adapter sees it. Following Node's
stream contract, a write to a stream that is already ended or destroyed
is reported through the callback or an error event, never by a
synchronous exception, so the stream write itself is a total
computation in the exception monad. -/
structure NodeStream where
  writableEnded : Bool
deriving DecidableEq

/-- Node writable.write: total, never throws synchronously; returns
whether the chunk was accepted (false once the stream has ended). -/
def streamWrite (st : NodeStream) (_data : String) : Except Thrown Bool :=
  Except.ok (!st.writableEnded)

/-- The adapter-session state pty-adapter.ts operations act on: the pid
and the child's stdin stream (none when the child has no stdin pipe). -/
structure FallbackSession where
  pid : Nat
  stdin : Option NodeStream
deriving DecidableEq

/-- The session's input stream is closed: absent, or ended (as after
process exit). -/
def stdinClosed (s : FallbackSession) : Bool :=
  match s.stdin with
  | none => true
  | some st => st.writableEnded

/-- pty-adapter.ts PtyAdapterProcess.write: this.process.stdin?.write(data).
Optional chaining skips the write when stdin is absent; otherwise the
stream write runs (total, see streamWrite). The session state is
unchanged either way. -/
def sessionWrite (s : FallbackSession) (data : String) :
    Except Thrown FallbackSession :=
  match s.stdin with
  | none => Except.ok s
  | some st =>
      match streamWrite st data with
      | Except.ok _ => Except.ok s
      | Except.error t => Except.error t

/-- pty-adapter.ts PtyAdapterProcess.resize: only logs at debug severity
that resize is unsupported; the session state is untouched and nothing
is thrown. -/
def sessionResize (dbg : Bool) (s : FallbackSession) (_cols _rows : Nat) :
    Except PtyError (FallbackSession × List LogLine) :=
  Except.ok (s, logDebug dbg "Resize not supported in fallback adapter")

/-- JavaScript object spread { ...a, ...b } viewed as a partial map:
keys of b win, other keys fall back to a. -/
def jsMerge (a b : String → Option String) : String → Option String :=
  fun k =>
    match b k with
    | some v => some v
    | none => a k

/-- pty-adapter.ts createFallbackAdapter spawn: the env argument passed
to child_process.spawn is { ...process.env, ...options.env } when
options.env is present and undefined otherwise. -/
def fallbackSpawnEnvArg (procEnv : String → Option String)
    (opts : IPtySpawnOptions) : Option (String → Option String) :=
  opts.env.map (fun e => jsMerge procEnv e)

/-- Node child_process.spawn env semantics: an undefined env option makes
the child inherit the parent's environment. -/
def childEnvOf (procEnv : String → Option String)
    (envArg : Option (String → Option String)) : String → Option String :=
  match envArg with
  | some e => e
  | none => procEnv

/-- The environment the fallback-spawned child actually receives. -/
def fallbackChildEnv (procEnv : String → Option String)
    (opts : IPtySpawnOptions) : String → Option String :=
  childEnvOf procEnv (fallbackSpawnEnvArg procEnv opts)

/-- Program counter of one task executing the async getPty body: about
to check the cache, suspended on the priority-1 import, suspended on the
priority-2 import, or returned with a value. -/
inductive TaskPC where
  | start
  | awaitLoad1
  | awaitLoad2
  | done (r : Option PtyProvider)

/-- Two concurrent callers of getPty. -/
inductive TaskId where
  | A
  | B
deriving DecidableEq

/-- A configuration of the cooperative scheduler: the shared cached cell,
both tasks' program counters, and the global trace of module names passed
to import, in issue order. -/
structure Conf where
  cached : Option (Option PtyProvider)
  pcA : TaskPC
  pcB : TaskPC
  imports : List String

/-- One cooperative step of a single task through the getPty body,
suspending at each await import. getPty has no in-flight-promise
sharing: its only guard is the cached cell, written when a return value
is computed. Returns the new cached cell, the task's new program
counter, and the imports issued during the step. -/
def stepTask (env : Env) (imp : String → ImportOutcome)
    (cached : Option (Option PtyProvider)) :
    TaskPC → Option (Option PtyProvider) × TaskPC × List String
  | TaskPC.start =>
      match cached with
      | some r => (cached, TaskPC.done r, [])
      | none =>
          if isTermux env then (cached, TaskPC.awaitLoad1, [termuxModuleName])
          else if isLinuxArm64 env then
            (cached, TaskPC.awaitLoad2, [lydellModuleName])
          else (some none, TaskPC.done none, [])
  | TaskPC.awaitLoad1 =>
      match (loadProvider imp (ptyDebugFlag env) termuxModuleName
          PtyProviderName.mmmbutoNodePty).res with
      | some p => (some (some p), TaskPC.done (some p), [])
      | none =>
          if !isTermux env && isLinuxArm64 env then
            (cached, TaskPC.awaitLoad2, [lydellModuleName])
          else (some none, TaskPC.done none, [])
  | TaskPC.awaitLoad2 =>
      match (loadProvider imp (ptyDebugFlag env) lydellModuleName
          PtyProviderName.lydellNodePtyLinuxArm64).res with
      | some p => (some (some p), TaskPC.done (some p), [])
      | none => (some none, TaskPC.done none, [])
  | TaskPC.done r => (cached, TaskPC.done r, [])

/-- Schedule one step of the named task in a configuration. -/
def step (env : Env) (imp : String → ImportOutcome) (c : Conf) :
    TaskId → Conf
  | TaskId.A =>
      let s := stepTask env imp c.cached c.pcA
      ⟨s.1, s.2.1, c.pcB, c.imports ++ s.2.2⟩
  | TaskId.B =>
      let s := stepTask env imp c.cached c.pcB
      ⟨s.1, c.pcA, s.2.1, c.imports ++ s.2.2⟩

/-- Run a cooperative schedule from a configuration. -/
def run (env : Env) (imp : String → ImportOutcome) :
    List TaskId → Conf → Conf
  | [], c => c
  | t :: rest, c => run env imp rest (step env imp c t)

/-- The initial configuration: cache undefined, both callers at the top
of getPty, no imports issued. -/
def initConf : Conf :=
  ⟨none, TaskPC.start, TaskPC.start, []⟩

/-! Concrete fixtures used by counterexamples and witnesses. -/

/-- A module value exporting a spawn function that succeeds. -/
def stubSpawnOkModule : ModuleVal :=
  ⟨true, fun _ _ _ => Except.ok 0⟩

/-- A loaded module whose module object itself carries spawn. -/
def stubLoadedModule : LoadedModule :=
  ⟨none, stubSpawnOkModule⟩

/-- The Error Node throws for an absent module. -/
def notFoundThrown : Thrown :=
  Thrown.jsError ⟨"Cannot find module", some "MODULE_NOT_FOUND"⟩

/-- An environment where both environment predicates hold: Linux ARM64
with a Termux PREFIX. -/
def envBothPredicates : Env :=
  ⟨"linux", "arm64", some "/data/data/com.termux/files/usr", none⟩

/-- A Termux environment (platform android), diagnostics disabled. -/
def envTermux : Env :=
  ⟨"android", "arm64", none, none⟩

/-- An environment where no provider predicate holds. -/
def envPlain : Env :=
  ⟨"linux", "x64", none, none⟩

/-- Module universe where only the lydell module is installed. -/
def impOnlyLydell : String → ImportOutcome := fun s =>
  if s = lydellModuleName then ImportOutcome.ok stubLoadedModule
  else ImportOutcome.threw notFoundThrown

/-- Module universe where only the Termux module is installed. -/
def impOnlyTermux : String → ImportOutcome := fun s =>
  if s = termuxModuleName then ImportOutcome.ok stubLoadedModule
  else ImportOutcome.threw notFoundThrown

/-- Module universe where no module is installed. -/
def impAllNotFound : String → ImportOutcome := fun _ =>
  ImportOutcome.threw notFoundThrown

/-- Module universe where every load fails with an unexpected Error
(code EACCES, not MODULE_NOT_FOUND). -/
def impUnexpectedErr : String → ImportOutcome := fun _ =>
  ImportOutcome.threw (Thrown.jsError ⟨"permission denied", some "EACCES"⟩)

/-- All module names imported across a sequence of getPty() calls. -/
def allImports : List CallOut → List String
  | [] => []
  | o :: rest => o.imports ++ allImports rest

/-- Whether an Except value is a normal return. -/
def exceptOk {ε α : Type} : Except ε α → Bool
  | Except.ok _ => true
  | Except.error _ => false

/-- Empty spawn options (every field undefined). -/
def optsEmpty : IPtySpawnOptions := {}

/-- A parent process environment fixture. -/
def procEnvFix : String → Option String := fun k =>
  if k = "PATH" then some "/usr/bin" else none

/-- A config environment fixture overriding one fresh key. -/
def optEnvFix : String → Option String := fun k =>
  if k = "FOO" then some "bar" else none

/-- Spawn options carrying the config environment fixture. -/
def optsWithEnv : IPtySpawnOptions := { env := some optEnvFix }

/-- A session whose child has exited: stdin stream present but ended. -/
def exitedSession : FallbackSession := ⟨42, some ⟨true⟩⟩

/-- Invariant on a task's program counter: the suspension points record
which guard brought the task there, and a finished task holds the
one-shot resolution value. -/
def pcOK (env : Env) (imp : String → ImportOutcome) (pc : TaskPC) : Prop :=
  (pc = TaskPC.awaitLoad1 → isTermux env = true) ∧
  (pc = TaskPC.awaitLoad2 →
    isTermux env = false ∧ isLinuxArm64 env = true) ∧
  (∀ r, pc = TaskPC.done r → r = (getPtyOnce env imp).res)

/-- Invariant on the shared cache cell: still unset, or holding the
one-shot resolution value. -/
def cacheOK (env : Env) (imp : String → ImportOutcome)
    (cached : Option (Option PtyProvider)) : Prop :=
  cached = none ∨ cached = some ((getPtyOnce env imp).res)

/-! Helper lemmas about the resolver. -/

/-- loadProvider always records exactly one import attempt. -/
theorem loadProvider_imports (imp : String → ImportOutcome) (dbg : Bool)
    (mn : String) (nm : PtyProviderName) :
    (loadProvider imp dbg mn nm).imports = [mn] := by
  unfold loadProvider
  cases imp mn with
  | ok m => dsimp only; split <;> rfl
  | threw t => rfl

/-- The resolved value of one uncached pass, as a function of the two
environment predicates: the Termux branch alone decides the outcome
when isTermux holds; the lydell branch decides it when isLinuxArm64
holds without isTermux; otherwise the outcome is the null sentinel. -/
theorem getPtyOnce_res (env : Env) (imp : String → ImportOutcome) :
    (getPtyOnce env imp).res =
      (if isTermux env then
        (loadProvider imp (ptyDebugFlag env) termuxModuleName
          PtyProviderName.mmmbutoNodePty).res
      else if isLinuxArm64 env then
        (loadProvider imp (ptyDebugFlag env) lydellModuleName
          PtyProviderName.lydellNodePtyLinuxArm64).res
      else none) := by
  unfold getPtyOnce linuxArm64Step fallbackStep
  by_cases hT : isTermux env
  · simp only [hT, if_true, Bool.not_true, Bool.false_and, if_false]
    cases h1 : (loadProvider imp (ptyDebugFlag env) termuxModuleName
        PtyProviderName.mmmbutoNodePty).res <;> simp
  · simp only [hT, if_false, Bool.not_false, Bool.true_and]
    by_cases hL : isLinuxArm64 env
    · simp only [hL, if_true]
      cases h2 : (loadProvider imp (ptyDebugFlag env) lydellModuleName
          PtyProviderName.lydellNodePtyLinuxArm64).res <;> simp
    · simp [hL]

/-- The import attempts of one uncached pass: exactly the guarded
providers, in priority order (the lydell module is only ever tried
outside Termux). -/
theorem getPtyOnce_imports (env : Env) (imp : String → ImportOutcome) :
    (getPtyOnce env imp).imports =
      (if isTermux env then [termuxModuleName]
      else if isLinuxArm64 env then [lydellModuleName]
      else []) := by
  unfold getPtyOnce linuxArm64Step fallbackStep
  by_cases hT : isTermux env
  · simp only [hT, if_true, Bool.not_true, Bool.false_and, if_false]
    cases h1 : (loadProvider imp (ptyDebugFlag env) termuxModuleName
        PtyProviderName.mmmbutoNodePty).res <;>
      simp [loadProvider_imports]
  · simp only [hT, if_false, Bool.not_false, Bool.true_and]
    by_cases hL : isLinuxArm64 env
    · simp only [hL, if_true]
      cases h2 : (loadProvider imp (ptyDebugFlag env) lydellModuleName
          PtyProviderName.lydellNodePtyLinuxArm64).res <;>
        simp [loadProvider_imports]
    · simp [hL]

/-- Replicated calls that import nothing contribute no imports. -/
theorem allImports_replicate (o : CallOut) (h : o.imports = []) :
    ∀ k, allImports (List.replicate k o) = [] := by
  intro k
  induction k with
  | zero => rfl
  | succ j ih => simp [List.replicate, allImports, h, ih]

/-- After the cache holds a value, every further sequential call returns
it unchanged with no output and no imports. -/
theorem callsFrom_cached (env : Env) (imp : String → ImportOutcome)
    (r : Option PtyProvider) :
    ∀ n, callsFrom env imp n (some r) =
      List.replicate n ⟨r, some r, [], []⟩ := by
  intro n
  induction n with
  | zero => rfl
  | succ k ih =>
      simp only [callsFrom, getPtyCall, List.replicate]
      exact congrArg _ ih

/-- loadProvider's log lines all go to the error sink when the debug
flag is off. -/
theorem loadProvider_logs_sink (imp : String → ImportOutcome) (dbg : Bool)
    (mn : String) (nm : PtyProviderName) (hdbg : dbg = false) :
    ∀ x ∈ (loadProvider imp dbg mn nm).logs, x.sink = Sink.errSink := by
  subst hdbg
  unfold loadProvider
  cases h : imp mn with
  | ok m =>
      dsimp only
      split <;> simp [logDebug]
  | threw t =>
      cases t with
      | jsError e =>
          dsimp only
          split <;> simp [logError]
      | nonError => simp

/-- loadProvider is silent with the debug flag off when the module either
loads or fails only with MODULE_NOT_FOUND. -/
theorem loadProvider_logs_nil (imp : String → ImportOutcome) (dbg : Bool)
    (mn : String) (nm : PtyProviderName) (hdbg : dbg = false)
    (h : ∀ e, imp mn = ImportOutcome.threw (Thrown.jsError e) →
      e.code = some "MODULE_NOT_FOUND") :
    (loadProvider imp dbg mn nm).logs = [] := by
  subst hdbg
  unfold loadProvider
  cases hm : imp mn with
  | ok m =>
      dsimp only
      split <;> simp [logDebug]
  | threw t =>
      cases t with
      | jsError e =>
          have hc := h e hm
          simp [hc]
      | nonError => rfl

/-- With the debug flag off, the console lines of one resolution pass are
exactly those of the one loadProvider call the guards reach. -/
theorem getPtyOnce_logs_false (env : Env) (imp : String → ImportOutcome)
    (hdbg : ptyDebugFlag env = false) :
    (getPtyOnce env imp).logs =
      (if isTermux env then
        (loadProvider imp false termuxModuleName
          PtyProviderName.mmmbutoNodePty).logs
      else if isLinuxArm64 env then
        (loadProvider imp false lydellModuleName
          PtyProviderName.lydellNodePtyLinuxArm64).logs
      else []) := by
  unfold getPtyOnce linuxArm64Step fallbackStep
  rw [hdbg]
  by_cases hT : isTermux env
  · simp only [hT, if_true, Bool.not_true, Bool.false_and, if_false]
    cases h1 : (loadProvider imp false termuxModuleName
        PtyProviderName.mmmbutoNodePty).res <;> simp [logDebug]
  · simp only [hT, if_false, Bool.not_false, Bool.true_and]
    by_cases hL : isLinuxArm64 env
    · simp only [hL, if_true]
      cases h2 : (loadProvider imp false lydellModuleName
          PtyProviderName.lydellNodePtyLinuxArm64).res <;> simp [logDebug]
    · simp [hL, logDebug]

/-- Claim C1, counterexample: on an environment where both environment
predicates hold (Linux ARM64 with a Termux PREFIX) and only the
lower-priority lydell module is installed and valid, resolution returns
the null sentinel, not the lydell provider. -/
theorem getPty_priority_counterexample :
    isTermux envBothPredicates = true ∧
    isLinuxArm64 envBothPredicates = true ∧
    (loadProvider impOnlyLydell (ptyDebugFlag envBothPredicates)
        lydellModuleName PtyProviderName.lydellNodePtyLinuxArm64).res.isSome
      = true ∧
    (getPtyOnce envBothPredicates impOnlyLydell).res = none :=
  ⟨by decide, by decide, rfl, rfl⟩

/-- Claim C1, amended: getPty invokes the Loader exactly for the
providers whose code-level guards hold — the Termux provider when
isTermux, the Linux-ARM64 provider only when isLinuxArm64 holds WITHOUT
isTermux — in priority order, returning the first non-null result; in
particular, when isTermux holds the Termux load alone decides the
outcome, so a Termux environment where only the Linux-ARM64 module is
available resolves to the null sentinel. -/
theorem getPty_priority_characterization (env : Env)
    (imp : String → ImportOutcome) :
    (getPtyOnce env imp).imports =
      (if isTermux env then [termuxModuleName]
      else if isLinuxArm64 env then [lydellModuleName]
      else []) ∧
    (isTermux env = true →
      (getPtyOnce env imp).res =
        (loadProvider imp (ptyDebugFlag env) termuxModuleName
          PtyProviderName.mmmbutoNodePty).res) ∧
    (isTermux env = false → isLinuxArm64 env = true →
      (getPtyOnce env imp).res =
        (loadProvider imp (ptyDebugFlag env) lydellModuleName
          PtyProviderName.lydellNodePtyLinuxArm64).res) ∧
    (isTermux env = false → isLinuxArm64 env = false →
      (getPtyOnce env imp).res = none) := by
  refine ⟨getPtyOnce_imports env imp, ?_, ?_, ?_⟩
  · intro hT
    rw [getPtyOnce_res]
    simp [hT]
  · intro hT hL
    rw [getPtyOnce_res]
    simp [hT, hL]
  · intro hT hL
    rw [getPtyOnce_res]
    simp [hT, hL]

/-- Witness for the amended C1 theorem at the counterexample input: with
both predicates true, the outcome equals the Termux load's outcome. -/
theorem getPty_priority_characterization_witness :
    (getPtyOnce envBothPredicates impOnlyLydell).res =
      (loadProvider impOnlyLydell (ptyDebugFlag envBothPredicates)
        termuxModuleName PtyProviderName.mmmbutoNodePty).res :=
  (getPty_priority_characterization envBothPredicates impOnlyLydell).2.1
    (by decide)

/-- Claim C2: sequential getPty() calls are memoized and idempotent:
every call returns the one-shot resolution value, the imports of the
whole call sequence are those of the first call alone, and each module
is imported at most once across the process lifetime. -/
theorem getPty_memoized (env : Env) (imp : String → ImportOutcome)
    (n : Nat) :
    (∀ o ∈ processCalls env imp n,
      o.res = (getPtyOnce env imp).res ∧
      o.cache = some (getPtyOnce env imp).res) ∧
    allImports (processCalls env imp n) =
      (if n = 0 then [] else (getPtyOnce env imp).imports) ∧
    (∀ m : String, (allImports (processCalls env imp n)).count m ≤ 1) := by
  cases n with
  | zero =>
      refine ⟨?_, ?_, ?_⟩ <;> simp [processCalls, callsFrom, allImports]
  | succ k =>
      have hrep := callsFrom_cached env imp (getPtyOnce env imp).res k
      have hpc : processCalls env imp (k + 1) =
          (⟨(getPtyOnce env imp).res, some (getPtyOnce env imp).res,
            (getPtyOnce env imp).logs, (getPtyOnce env imp).imports⟩ :
            CallOut) ::
          List.replicate k
            (⟨(getPtyOnce env imp).res, some (getPtyOnce env imp).res,
              [], []⟩ : CallOut) := by
        simp only [processCalls, callsFrom, getPtyCall]
        exact congrArg _ hrep
      have hall : allImports (List.replicate k
          (⟨(getPtyOnce env imp).res, some (getPtyOnce env imp).res,
            [], []⟩ : CallOut)) = [] :=
        allImports_replicate _ rfl k
      refine ⟨?_, ?_, ?_⟩
      · intro o ho
        rw [hpc] at ho
        rcases List.mem_cons.mp ho with h | h
        · subst h
          exact ⟨rfl, rfl⟩
        · have := List.eq_of_mem_replicate h
          subst this
          exact ⟨rfl, rfl⟩
      · rw [hpc]
        simp [allImports, hall]
      · intro m
        rw [hpc]
        simp only [allImports, hall, List.append_nil]
        rw [getPtyOnce_imports]
        by_cases hT : isTermux env
        · simpa [hT] using List.count_le_length m [termuxModuleName]
        · by_cases hL : isLinuxArm64 env
          · simpa [hT, hL] using List.count_le_length m [lydellModuleName]
          · simp [hT, hL]

/-- Witness for C2: the first of two calls over a fresh process returns
the one-shot resolution value. -/
theorem getPty_memoized_witness :
    (getPtyCall envTermux impOnlyTermux none).res =
      (getPtyOnce envTermux impOnlyTermux).res := by
  have h := (getPty_memoized envTermux impOnlyTermux 1).1
    (getPtyCall envTermux impOnlyTermux none)
    (by simp [processCalls, callsFrom])
  exact h.1

/-- Claim C5: the Provider Loader never raises — a thrown import yields
null, a loaded module without a truthy spawn yields null, the try/catch
form always returns normally with the collapsed function's value, and
the silent-versus-logged branch depends only on the thrown Error's code
field, never its message. -/
theorem loadProvider_never_throws (imp : String → ImportOutcome)
    (dbg : Bool) (mn : String) (nm : PtyProviderName) :
    (∀ t, imp mn = ImportOutcome.threw t →
      (loadProvider imp dbg mn nm).res = none) ∧
    (∀ m, imp mn = ImportOutcome.ok m →
      (m.defaultExport.getD m.selfVal).hasSpawn = false →
      (loadProvider imp dbg mn nm).res = none) ∧
    loadProviderExc imp dbg mn nm = Except.ok (loadProvider imp dbg mn nm) ∧
    (∀ (imp₂ : String → ImportOutcome) (e₁ e₂ : JsError),
      imp mn = ImportOutcome.threw (Thrown.jsError e₁) →
      imp₂ mn = ImportOutcome.threw (Thrown.jsError e₂) →
      e₁.code = e₂.code →
      (loadProvider imp dbg mn nm).logs =
        (loadProvider imp₂ dbg mn nm).logs) := by
  refine ⟨?_, ?_, ?_, ?_⟩
  · intro t ht
    unfold loadProvider
    rw [ht]
  · intro m hm hs
    unfold loadProvider
    rw [hm]
    simp [hs]
  · cases h : imp mn with
    | ok m =>
        simp only [loadProviderExc, loadProviderTry, loadProvider, h]
        by_cases hs : (!(m.defaultExport.getD m.selfVal).hasSpawn) = true
        · simp [hs]
        · simp [hs]
    | threw t =>
        simp only [loadProviderExc, loadProviderTry, loadProvider, h]
  · intro imp₂ e₁ e₂ h₁ h₂ hcode
    unfold loadProvider
    rw [h₁, h₂]
    dsimp only
    rw [hcode]

/-- Witness for C5: an absent module (MODULE_NOT_FOUND) yields null. -/
theorem loadProvider_never_throws_witness :
    (loadProvider impAllNotFound false termuxModuleName
      PtyProviderName.mmmbutoNodePty).res = none :=
  (loadProvider_never_throws impAllNotFound false termuxModuleName
    PtyProviderName.mmmbutoNodePty).1 notFoundThrown rfl

/-- Claim C8, counterexample: with PTY_DEBUG unset the resolution path is
not silent — an unexpected module-load error (code EACCES) reaches the
error sink, which config.ts does not gate behind the debug flag. -/
theorem log_gating_counterexample :
    ptyDebugFlag envTermux = false ∧
    (getPtyOnce envTermux impUnexpectedErr).logs =
      [⟨Sink.errSink, "Unexpected error loading native module:"⟩] :=
  ⟨by decide, rfl⟩

/-- Claim C8, amended: only the debug sink is gated by PTY_DEBUG; with
the flag off, every line the resolution path emits goes to the ungated
error sink, and the path is fully silent provided no module load throws
an Error whose code differs from MODULE_NOT_FOUND. -/
theorem log_gating_amended (env : Env) (imp : String → ImportOutcome)
    (hdbg : ptyDebugFlag env = false) :
    (∀ x ∈ (getPtyOnce env imp).logs, x.sink = Sink.errSink) ∧
    ((∀ e, imp termuxModuleName = ImportOutcome.threw (Thrown.jsError e) →
        e.code = some "MODULE_NOT_FOUND") →
      (∀ e, imp lydellModuleName = ImportOutcome.threw (Thrown.jsError e) →
        e.code = some "MODULE_NOT_FOUND") →
      (getPtyOnce env imp).logs = []) := by
  refine ⟨?_, ?_⟩
  · rw [getPtyOnce_logs_false env imp hdbg]
    by_cases hT : isTermux env
    · simpa [hT] using loadProvider_logs_sink imp false termuxModuleName
        PtyProviderName.mmmbutoNodePty rfl
    · by_cases hL : isLinuxArm64 env
      · simpa [hT, hL] using loadProvider_logs_sink imp false
          lydellModuleName PtyProviderName.lydellNodePtyLinuxArm64 rfl
      · simp [hT, hL]
  · intro h1 h2
    rw [getPtyOnce_logs_false env imp hdbg]
    by_cases hT : isTermux env
    · simp [hT, loadProvider_logs_nil imp false termuxModuleName
        PtyProviderName.mmmbutoNodePty rfl h1]
    · by_cases hL : isLinuxArm64 env
      · simp [hT, hL, loadProvider_logs_nil imp false lydellModuleName
          PtyProviderName.lydellNodePtyLinuxArm64 rfl h2]
      · simp [hT, hL]

/-- Witness for the amended C8 theorem: in a Termux environment where
the module is merely absent, the path emits nothing with the flag off. -/
theorem log_gating_amended_witness :
    (getPtyOnce envTermux impAllNotFound).logs = [] := by
  refine (log_gating_amended envTermux impAllNotFound (by decide)).2 ?_ ?_
  · intro e he
    simp only [impAllNotFound, notFoundThrown] at he
    injection he with h1
    injection h1 with h2
    rw [← h2]
  · intro e he
    simp only [impAllNotFound, notFoundThrown] at he
    injection he with h1
    injection h1 with h2
    rw [← h2]

/-- Claim C3: spawnPty's error contract — the null resolution outcome
produces PtyError NATIVE_NOT_FOUND (never SPAWN_FAILED); a resolved
provider is delegated to, a successful spawn's handle is returned, and
a spawn that throws an Error yields PtyError SPAWN_FAILED carrying the
original Error's message. -/
theorem spawnPty_error_contract (env : Env) (imp : String → ImportOutcome)
    (cached : Option (Option PtyProvider)) (file : String)
    (args : List String) (options : IPtySpawnOptions) :
    ((getPtyCall env imp cached).res = none →
      (spawnPty env imp cached file args options).out =
        Except.error ⟨"Native PTY not available",
          PtyErrorCode.NATIVE_NOT_FOUND⟩) ∧
    (∀ p, (getPtyCall env imp cached).res = some p →
      (∀ h : Nat, p.module.spawn file args options = Except.ok h →
        (spawnPty env imp cached file args options).out = Except.ok h) ∧
      (∀ e : JsError,
        p.module.spawn file args options = Except.error (Thrown.jsError e) →
        (spawnPty env imp cached file args options).out =
          Except.error ⟨e.message, PtyErrorCode.SPAWN_FAILED⟩)) := by
  constructor
  · intro h0
    simp only [spawnPty, h0]
  · intro p hp
    constructor
    · intro hnd hsp
      simp only [spawnPty, hp, hsp]
    · intro e hsp
      simp only [spawnPty, hp, hsp]

/-- Witness for C3: on an environment with no applicable provider,
spawnPty fails with NATIVE_NOT_FOUND. -/
theorem spawnPty_error_contract_witness :
    (spawnPty envPlain impAllNotFound none "bash" [] optsEmpty).out =
      Except.error ⟨"Native PTY not available",
        PtyErrorCode.NATIVE_NOT_FOUND⟩ :=
  (spawnPty_error_contract envPlain impAllNotFound none "bash" []
    optsEmpty).1 rfl

/-- adapterTrace distributes over trace concatenation. -/
theorem adapterTrace_append (a b : List ProcEvent) :
    adapterTrace (a ++ b) = adapterTrace a ++ adapterTrace b := by
  induction a with
  | nil => rfl
  | cons e rest ih => simp [adapterTrace, ih]

/-- Underlying events that are not exits deliver no exit events. -/
theorem adapterTrace_no_exit (l : List ProcEvent)
    (h : ∀ e ∈ l, isExitProc e = false) :
    (adapterTrace l).countP (fun e => isExitEv e) = 0 := by
  induction l with
  | nil => rfl
  | cons e rest ih =>
      have he := h e (List.mem_cons_self e rest)
      have hrest : ∀ x ∈ rest, isExitProc x = false :=
        fun x hx => h x (List.mem_cons_of_mem e hx)
      cases e with
      | exited c sg => simp [isExitProc] at he
      | outData s =>
          rw [adapterTrace, List.countP_append, ih hrest]
          rfl
      | errData s =>
          rw [adapterTrace, List.countP_append, ih hrest]
          rfl
      | procError m =>
          rw [adapterTrace, List.countP_append, ih hrest]
          rfl

/-- Underlying events that are not exits deliver only data events. -/
theorem adapterTrace_all_data (l : List ProcEvent)
    (h : ∀ e ∈ l, isExitProc e = false) :
    ∀ x ∈ adapterTrace l, isDataEv x = true := by
  induction l with
  | nil =>
      intro x hx
      cases hx
  | cons e rest ih =>
      have he := h e (List.mem_cons_self e rest)
      have hrest : ∀ x ∈ rest, isExitProc x = false :=
        fun x hx => h x (List.mem_cons_of_mem e hx)
      intro x hx
      cases e with
      | exited c sg => simp [isExitProc] at he
      | outData s =>
          rcases List.mem_append.mp hx with hd | ht
          · rcases List.mem_singleton.mp hd with rfl
            rfl
          · exact ih hrest x ht
      | errData s =>
          rcases List.mem_append.mp hx with hd | ht
          · rcases List.mem_singleton.mp hd with rfl
            rfl
          · exact ih hrest x ht
      | procError m =>
          exact ih hrest x hx

/-- Claim C4, counterexample: the adapter keeps forwarding stdio data
after the exit event — a chunk the stream flushes after the process's
exit is still delivered to the data listeners, here as a data event
strictly after the exit event in the listener-visible trace. -/
theorem adapter_exit_counterexample :
    adapterTrace [ProcEvent.exited (some 0) none, ProcEvent.outData "late"]
      = [SessEvent.exit 0 0, SessEvent.data "late"] :=
  rfl

/-- Claim C4, amended: when the underlying process emits exit exactly
once, the listeners see exactly one exit event carrying code ?? -1 and
signal ?? 0; but data events are forwarded unconditionally, so chunks
the stdio streams flush after exit are still delivered to listeners
after the exit event (everything delivered after it is such forwarded
data). -/
theorem adapter_exit_once_contract (pre post : List ProcEvent)
    (c sg : Option Int)
    (hpre : ∀ e ∈ pre, isExitProc e = false)
    (hpost : ∀ e ∈ post, isExitProc e = false) :
    adapterTrace (pre ++ ProcEvent.exited c sg :: post) =
      adapterTrace pre ++ SessEvent.exit (c.getD (-1)) (sg.getD 0) ::
        adapterTrace post ∧
    (adapterTrace pre).countP (fun e => isExitEv e) = 0 ∧
    (adapterTrace post).countP (fun e => isExitEv e) = 0 ∧
    (adapterTrace (pre ++ ProcEvent.exited c sg :: post)).countP
      (fun e => isExitEv e) = 1 ∧
    (∀ x ∈ adapterTrace post, isDataEv x = true) := by
  have happ : adapterTrace (pre ++ ProcEvent.exited c sg :: post) =
      adapterTrace pre ++ SessEvent.exit (c.getD (-1)) (sg.getD 0) ::
        adapterTrace post := by
    rw [adapterTrace_append]
    simp [adapterTrace, deliver]
  have hzpre := adapterTrace_no_exit pre hpre
  have hzpost := adapterTrace_no_exit post hpost
  refine ⟨happ, hzpre, hzpost, ?_, adapterTrace_all_data post hpost⟩
  rw [happ, List.countP_append, hzpre, List.countP_cons, hzpost]
  rfl

/-- Witness for the amended C4 theorem: a process printing one chunk,
exiting with code 3, and flushing one late chunk delivers data, then the
single exit event with code 3 and signal 0, then the late data. -/
theorem adapter_exit_once_contract_witness :
    adapterTrace ([ProcEvent.outData "a"] ++
        ProcEvent.exited (some 3) none :: [ProcEvent.outData "late"]) =
      adapterTrace [ProcEvent.outData "a"] ++
        SessEvent.exit 3 0 :: adapterTrace [ProcEvent.outData "late"] :=
  (adapter_exit_once_contract [ProcEvent.outData "a"]
    [ProcEvent.outData "late"] (some 3) none (by decide) (by decide)).1

/-- Claim C6: the fallback adapter's environment merge — with
options.env present, the child sees the inherited environment overridden
pointwise by the config entries (inherited keys absent from the config
survive); with options.env absent, the child inherits the full parent
environment; wholesale replacement never occurs. -/
theorem fallback_env_merge (procEnv : String → Option String)
    (opts : IPtySpawnOptions) (k : String) :
    (∀ e, opts.env = some e →
      fallbackChildEnv procEnv opts k =
        (match e k with
         | some v => some v
         | none => procEnv k)) ∧
    (opts.env = none → fallbackChildEnv procEnv opts k = procEnv k) := by
  constructor
  · intro e he
    simp [fallbackChildEnv, fallbackSpawnEnvArg, childEnvOf, jsMerge, he]
  · intro he
    simp [fallbackChildEnv, fallbackSpawnEnvArg, childEnvOf, he]

/-- Witness for C6: a key present only in the inherited environment
survives the merge with a config environment that does not mention it. -/
theorem fallback_env_merge_witness :
    fallbackChildEnv procEnvFix optsWithEnv "PATH" = some "/usr/bin" :=
  (fallback_env_merge procEnvFix optsWithEnv "PATH").1 optEnvFix rfl

/-- Claim C7: write-after-exit safety — writing to a fallback session
whose input stream is closed (the child has exited) returns normally and
changes nothing: no exception is raised, matching the optional-chained
forward to the stream. -/
theorem write_after_exit_safe (s : FallbackSession) (data : String)
    (_h : stdinClosed s = true) :
    sessionWrite s data = Except.ok s := by
  cases hs : s.stdin with
  | none => simp [sessionWrite, hs]
  | some st => simp [sessionWrite, streamWrite, hs]

/-- Witness for C7 at a session whose stdin has ended. -/
theorem write_after_exit_safe_witness :
    sessionWrite exitedSession "ls" = Except.ok exitedSession :=
  write_after_exit_safe exitedSession "ls" (by decide)

/-- Claim C9: resize on a fallback session is a harmless no-op — it
returns normally (so it never raises, in particular never a
RESIZE_FAILED PtyError), emits only a debug-severity line, and hands
back the session state unchanged, leaving all subsequent data, exit,
write and kill behavior untouched. -/
theorem resize_noop (dbg : Bool) (s : FallbackSession) (cols rows : Nat) :
    sessionResize dbg s cols rows =
      Except.ok (s, logDebug dbg "Resize not supported in fallback adapter")
    ∧ exceptOk (sessionResize dbg s cols rows) = true :=
  ⟨rfl, rfl⟩

/-- One cooperative step preserves the cache and program-counter
invariants. -/
theorem stepTask_preserves (env : Env) (imp : String → ImportOutcome)
    (cached : Option (Option PtyProvider)) (pc : TaskPC)
    (hc : cacheOK env imp cached) (hp : pcOK env imp pc) :
    cacheOK env imp (stepTask env imp cached pc).1 ∧
    pcOK env imp (stepTask env imp cached pc).2.1 := by
  cases pc with
  | start =>
      cases hcc : cached with
      | some x =>
          have hx : x = (getPtyOnce env imp).res := by
            rcases hc with h | h
            · rw [hcc] at h
              exact absurd h (by simp)
            · rw [hcc] at h
              exact Option.some_injective _ h
          refine ⟨?_, ?_, ?_, ?_⟩
          · exact Or.inr (by simp [stepTask, hx])
          · intro h
            exact absurd h (by simp [stepTask])
          · intro h
            exact absurd h (by simp [stepTask])
          · intro r hr
            simp only [stepTask] at hr
            cases hr
            exact hx
      | none =>
          by_cases hT : isTermux env
          · refine ⟨Or.inl (by simp [stepTask, hT]), ?_, ?_, ?_⟩
            · intro _
              exact hT
            · intro h
              simp only [stepTask, hT, if_true] at h
              exact absurd h (by simp)
            · intro r hr
              simp only [stepTask, hT, if_true] at hr
              exact absurd hr (by simp)
          · by_cases hL : isLinuxArm64 env
            · refine ⟨Or.inl (by simp [stepTask, hT, hL]), ?_, ?_, ?_⟩
              · intro h
                simp only [stepTask, hT, hL, if_true, if_false] at h
                exact absurd h (by simp)
              · intro _
                exact ⟨by simp [hT], hL⟩
              · intro r hr
                simp only [stepTask, hT, hL, if_true, if_false] at hr
                exact absurd hr (by simp)
            · have hres : (getPtyOnce env imp).res = none := by
                rw [getPtyOnce_res]
                simp [hT, hL]
              refine ⟨Or.inr (by simp [stepTask, hT, hL, hres]), ?_, ?_, ?_⟩
              · intro h
                simp only [stepTask, hT, hL, if_false] at h
                exact absurd h (by simp)
              · intro h
                simp only [stepTask, hT, hL, if_false] at h
                exact absurd h (by simp)
              · intro r hr
                simp only [stepTask, hT, hL, if_false] at hr
                cases hr
                exact hres.symm
  | awaitLoad1 =>
      have hT : isTermux env = true := hp.1 rfl
      have hres : (getPtyOnce env imp).res =
          (loadProvider imp (ptyDebugFlag env) termuxModuleName
            PtyProviderName.mmmbutoNodePty).res := by
        rw [getPtyOnce_res]
        simp [hT]
      cases hload : (loadProvider imp (ptyDebugFlag env) termuxModuleName
          PtyProviderName.mmmbutoNodePty).res with
      | some p =>
          refine ⟨Or.inr ?_, ?_, ?_, ?_⟩
          · simp [stepTask, hload, hres]
          · intro h
            simp only [stepTask, hload] at h
            exact absurd h (by simp)
          · intro h
            simp only [stepTask, hload] at h
            exact absurd h (by simp)
          · intro r hr
            simp only [stepTask, hload] at hr
            cases hr
            rw [hres, hload]
      | none =>
          have hguard : (!isTermux env && isLinuxArm64 env) = false := by
            simp [hT]
          refine ⟨Or.inr ?_, ?_, ?_, ?_⟩
          · simp [stepTask, hload, hguard, hres]
          · intro h
            simp only [stepTask, hload, hguard, if_false] at h
            exact absurd h (by simp)
          · intro h
            simp only [stepTask, hload, hguard, if_false] at h
            exact absurd h (by simp)
          · intro r hr
            simp only [stepTask, hload, hguard, if_false] at hr
            cases hr
            rw [hres, hload]
  | awaitLoad2 =>
      obtain ⟨hT, hL⟩ := hp.2.1 rfl
      have hres : (getPtyOnce env imp).res =
          (loadProvider imp (ptyDebugFlag env) lydellModuleName
            PtyProviderName.lydellNodePtyLinuxArm64).res := by
        rw [getPtyOnce_res]
        simp [hT, hL]
      cases hload : (loadProvider imp (ptyDebugFlag env) lydellModuleName
          PtyProviderName.lydellNodePtyLinuxArm64).res with
      | some p =>
          refine ⟨Or.inr ?_, ?_, ?_, ?_⟩
          · simp [stepTask, hload, hres]
          · intro h
            simp only [stepTask, hload] at h
            exact absurd h (by simp)
          · intro h
            simp only [stepTask, hload] at h
            exact absurd h (by simp)
          · intro r hr
            simp only [stepTask, hload] at hr
            cases hr
            rw [hres, hload]
      | none =>
          refine ⟨Or.inr ?_, ?_, ?_, ?_⟩
          · simp [stepTask, hload, hres]
          · intro h
            simp only [stepTask, hload] at h
            exact absurd h (by simp)
          · intro h
            simp only [stepTask, hload] at h
            exact absurd h (by simp)
          · intro r hr
            simp only [stepTask, hload] at hr
            cases hr
            rw [hres, hload]
  | done r =>
      refine ⟨?_, ?_, ?_, ?_⟩
      · exact hc
      · intro h
        simp only [stepTask] at h
        exact absurd h (by simp)
      · intro h
        simp only [stepTask] at h
        exact absurd h (by simp)
      · intro r' hr
        simp only [stepTask] at hr
        cases hr
        exact hp.2.2 r rfl

/-- Scheduling either task preserves the configuration invariant. -/
theorem step_preserves (env : Env) (imp : String → ImportOutcome)
    (c : Conf) (t : TaskId)
    (h : cacheOK env imp c.cached ∧ pcOK env imp c.pcA ∧
      pcOK env imp c.pcB) :
    cacheOK env imp (step env imp c t).cached ∧
    pcOK env imp (step env imp c t).pcA ∧
    pcOK env imp (step env imp c t).pcB := by
  cases t with
  | A =>
      have hs := stepTask_preserves env imp c.cached c.pcA h.1 h.2.1
      exact ⟨hs.1, hs.2, h.2.2⟩
  | B =>
      have hs := stepTask_preserves env imp c.cached c.pcB h.1 h.2.2
      exact ⟨hs.1, h.2.1, hs.2⟩

/-- Running any schedule preserves the configuration invariant. -/
theorem run_preserves (env : Env) (imp : String → ImportOutcome)
    (sched : List TaskId) :
    ∀ c : Conf,
      cacheOK env imp c.cached ∧ pcOK env imp c.pcA ∧ pcOK env imp c.pcB →
      cacheOK env imp (run env imp sched c).cached ∧
      pcOK env imp (run env imp sched c).pcA ∧
      pcOK env imp (run env imp sched c).pcB := by
  induction sched with
  | nil =>
      intro c h
      exact h
  | cons t rest ih =>
      intro c h
      exact ih (step env imp c t) (step_preserves env imp c t h)

/-- Claim C10, counterexample: two concurrent getPty() callers that both
pass the cache check before either resolution completes each start their
own load sequence — after scheduling each task once, the import trace
holds the Termux module twice, so a second resolution (and a second
Loader invocation for the same provider) has been started. -/
theorem concurrent_resolution_counterexample :
    (run envTermux impOnlyTermux [TaskId.A, TaskId.B] initConf).imports =
      [termuxModuleName, termuxModuleName] :=
  rfl

/-- Claim C10, amended: getPty shares no in-flight resolution — a second
caller arriving while the first is still resolving re-runs the
resolution and may invoke the Loader again — but the outcome is still
consistent: under every cooperative schedule the cache only ever holds
the one-shot resolution value, every completed caller returns exactly
that value, and a caller whose cache check runs after a completed
resolution returns the cached value immediately without issuing any
import. -/
theorem concurrent_resolution_consistency (env : Env)
    (imp : String → ImportOutcome) (sched : List TaskId) :
    stepTask env imp (some ((getPtyOnce env imp).res)) TaskPC.start =
      (some ((getPtyOnce env imp).res),
        TaskPC.done ((getPtyOnce env imp).res), []) ∧
    ((run env imp sched initConf).cached = none ∨
      (run env imp sched initConf).cached =
        some ((getPtyOnce env imp).res)) ∧
    (∀ r, (run env imp sched initConf).pcA = TaskPC.done r →
      r = (getPtyOnce env imp).res) ∧
    (∀ r, (run env imp sched initConf).pcB = TaskPC.done r →
      r = (getPtyOnce env imp).res) := by
  have h0 : cacheOK env imp initConf.cached ∧ pcOK env imp initConf.pcA ∧
      pcOK env imp initConf.pcB := by
    refine ⟨Or.inl rfl, ?_, ?_⟩ <;>
      exact ⟨fun h => absurd h (by simp [initConf]),
        fun h => absurd h (by simp [initConf]),
        fun r hr => absurd hr (by simp [initConf])⟩
  have h := run_preserves env imp sched initConf h0
  exact ⟨rfl, h.1, h.2.1.2.2, h.2.2.2.2⟩

/-- Witness for the amended C10 theorem: under the interleaved schedule
A, B, A, B both callers finish, and caller A's value is the one-shot
resolution value. -/
theorem concurrent_resolution_consistency_witness :
    some (PtyProvider.mk stubSpawnOkModule PtyProviderName.mmmbutoNodePty) =
      (getPtyOnce envTermux impOnlyTermux).res :=
  (concurrent_resolution_consistency envTermux impOnlyTermux
    [TaskId.A, TaskId.B, TaskId.A, TaskId.B]).2.2.1
    (some ⟨stubSpawnOkModule, PtyProviderName.mmmbutoNodePty⟩) rfl

end PtyTermuxUtils
